import Mathlib

/-!
Verification of the form input normalization / validation pipeline of the
Finance health predictor frontend (src/Frontend/src/pages/InputForm.jsx and
src/Frontend/src/pages/Dashboard.jsx).

Display strings are modelled as `List Char`; JavaScript numbers that matter
here are modelled as `Option ℚ` (with `none` playing the role of NaN, since
every number reaching the modelled code is produced by parsing a sanitized
decimal string, which yields either NaN or a finite non-negative decimal).
-/

namespace FinHealth

/-- The single decimal digit characters used by the decimal renderer. -/
def digitChar (d : Nat) : Char :=
  match d with
  | 0 => '0' | 1 => '1' | 2 => '2' | 3 => '3' | 4 => '4'
  | 5 => '5' | 6 => '6' | 7 => '7' | 8 => '8' | 9 => '9'
  | _ => '*'

/-- Numeric value of a digit character. -/
def digCharVal (c : Char) : Nat := c.toNat - 48

/-- Value of a most-significant-first digit string. -/
def valMsf (ds : List Char) : Nat :=
  ds.foldl (fun a c => 10 * a + digCharVal c) 0

/-- Decimal digit extraction with explicit fuel, so that concrete inputs
evaluate by kernel reduction. -/
def toDecRevAux (fuel : Nat) (n : Nat) : List Char :=
  match fuel with
  | 0 => []
  | fuel + 1 =>
      if n < 10 then [digitChar n]
      else digitChar (n % 10) :: toDecRevAux fuel (n / 10)

/-- Decimal digits of a natural number, least significant first. -/
def toDecRev (n : Nat) : List Char := toDecRevAux (n + 1) n

/-- Model of `parseIndianNumber` (InputForm.jsx line 30): `value.replace` of
every comma by nothing. -/
def parseIndianNumber (cs : List Char) : List Char :=
  cs.filter (fun c => c ≠ ',')

/-- Model of JavaScript `parseFloat` restricted to the character set that can
reach it in this code base (digits, a decimal point, commas): the longest
prefix of the form `digits [. digits]` is parsed; if it holds no digit the
result is NaN, modelled as `none`. -/
def jsParseFloat (cs : List Char) : Option ℚ :=
  let ip := cs.takeWhile Char.isDigit
  let rest := cs.dropWhile Char.isDigit
  match rest with
  | '.' :: rest2 =>
      let fp := rest2.takeWhile Char.isDigit
      if ip = [] ∧ fp = [] then none
      else some ((valMsf ip : ℚ) + (valMsf fp : ℚ) / 10 ^ fp.length)
  | _ => if ip = [] then none else some ((valMsf ip : ℚ))

/-- Insert a comma after every second digit of an already-reversed
(least-significant-first) digit string: the Indian grouping of all digits
above the last three. -/
def chunkRev2 : List Char → List Char
  | [] => []
  | [a] => [a]
  | [a, b] => [a, b]
  | a :: b :: c :: rest => a :: b :: ',' :: chunkRev2 (c :: rest)

/-- Indian digit grouping over a least-significant-first digit string:
the low three digits form one group, the remaining digits pair up. -/
def indianGroupRev (rds : List Char) : List Char :=
  if rds.length ≤ 3 then rds
  else rds.take 3 ++ ',' :: chunkRev2 (rds.drop 3)

/-- Rendering of a natural number in the en-IN digit grouping convention,
as produced by the locale formatter of the code. -/
def formatNatIndian (n : Nat) : List Char :=
  (indianGroupRev (toDecRev n)).reverse

/-- Floor of a rational, written on the raw representation so that concrete
inputs evaluate by kernel reduction; equal to `Int.floor` (see
`ratFloor_eq_floor`). -/
def ratFloor (q : ℚ) : Int := q.num / q.den

/-- Rounding used by the locale formatter with zero fraction digits:
half away from zero. -/
def roundHalfExpand (q : ℚ) : Int :=
  if 0 ≤ q then ratFloor (q + 1 / 2) else -(ratFloor (-q + 1 / 2))

/-- Model of `new Intl.NumberFormat` with locale en-IN and
`maximumFractionDigits` 0, applied to a finite number: round half away from
zero, then render with Indian digit grouping. -/
def formatQ (q : ℚ) : List Char :=
  let n := roundHalfExpand q
  if n < 0 then '-' :: formatNatIndian n.natAbs else formatNatIndian n.toNat

/-- Model of `formatIndianRupee` (InputForm.jsx lines 20-28) applied to a
string: empty (falsy) input gives the empty string, NaN gives the input back,
a finite parse is rendered by the locale formatter. -/
def formatIndianRupee (value : List Char) : List Char :=
  if value = [] then []
  else
    match jsParseFloat value with
    | none => value
    | some num => formatQ num

/-- Model of `formatIndianRupee` (InputForm.jsx lines 20-28) applied to a
number, as the summary section does: `0` and NaN are falsy, so they yield the
empty string; a finite nonzero number is rendered by the locale formatter. -/
def formatIndianRupeeNum (value : Option ℚ) : List Char :=
  match value with
  | none => []
  | some q => if q = 0 then [] else formatQ q

/-- Model of the Dashboard's `formatIndianRupee` (Dashboard.jsx lines 48-53):
`if (!value) return ''` sends `0`, NaN and an absent value to the empty
string, anything else to the locale formatter. -/
def formatIndianRupeeDash (value : Option ℚ) : List Char :=
  match value with
  | none => []
  | some q => if q = 0 then [] else formatQ q

/-- Model of `value.replace` dropping every character that is not a digit, a
decimal point or a comma (InputForm.jsx line 124). -/
def jsSanitize (value : List Char) : List Char :=
  value.filter (fun c => c.isDigit || c = '.' || c = ',')

/-- Model of JavaScript `split` on the decimal point character, used by the
code to count decimal points (InputForm.jsx line 127). -/
def splitDots : List Char → List (List Char)
  | [] => [[]]
  | c :: cs =>
      if c = '.' then [] :: splitDots cs
      else
        match splitDots cs with
        | [] => [[c]]
        | p :: ps => (c :: p) :: ps

/-- Model of the multiple-decimal-point guard (InputForm.jsx lines 127-128):
if the sanitized text splits into more than two pieces at decimal points, the
last character is sliced off. -/
def jsDecimalGuard (sanitizedValue : List Char) : List Char :=
  if (splitDots sanitizedValue).length - 1 > 1 then sanitizedValue.dropLast
  else sanitizedValue

/-- Modelled from the spec sections 4.1 steps 1 and 2, for comparison with
the code: strip every character that is not a digit, decimal point, or
grouping separator; then, if the filtered text contains more than one decimal
point, drop exactly its last character, otherwise keep the filtered text. -/
def specNormalize (value : List Char) : List Char :=
  let filtered := value.filter (fun c => c.isDigit || c = '.' || c = ',')
  if 1 < filtered.count '.' then filtered.dropLast else filtered

/-- The five numeric fields of the entry form. -/
inductive Field where
  | monthly_income
  | monthly_expenses
  | loan_emi
  | savings
  | investments
deriving DecidableEq

/-- The display strings held by the form, one per field
(the `formData` React state of InputForm.jsx). -/
structure FormData where
  monthly_income : List Char
  monthly_expenses : List Char
  loan_emi : List Char
  savings : List Char
  investments : List Char
deriving DecidableEq

/-- Field lookup on the form data. -/
def FormData.get (fd : FormData) : Field → List Char
  | .monthly_income => fd.monthly_income
  | .monthly_expenses => fd.monthly_expenses
  | .loan_emi => fd.loan_emi
  | .savings => fd.savings
  | .investments => fd.investments

/-- Field update on the form data (the computed-key spread
`{ ...prev, [name]: finalValue }`). -/
def FormData.set (fd : FormData) (f : Field) (v : List Char) : FormData :=
  match f with
  | .monthly_income => { fd with monthly_income := v }
  | .monthly_expenses => { fd with monthly_expenses := v }
  | .loan_emi => { fd with loan_emi := v }
  | .savings => { fd with savings := v }
  | .investments => { fd with investments := v }

def requiredMsg : String := "This field is required"
def invalidMsg : String := "Please enter a valid number"
def negativeMsg : String := "Value cannot be negative"
def zeroMsg : String := "Income cannot be zero"
def limitMsg : String := "Value exceeds reasonable limit"
def incomeBoundMsg : String := "Monthly income cannot exceed ₹150,000"
def expensesBoundMsg : String := "Monthly expenses cannot exceed ₹150,000"
def incomeSumMsg : String :=
  "Income must equal the sum of Expenses, Loan EMI, Savings, and Investments"
def otherSumMsg : String := "Total must match monthly income"
def failAlertMsg : String := "Failed to complete financial analysis. Please try again."

/-- The sum-mismatch message written onto a field by the cross-field check
(InputForm.jsx lines 108-112). -/
def sumMsg : Field → String
  | .monthly_income => incomeSumMsg
  | _ => otherSumMsg

/-- The real-time ceiling message for the two bounded fields
(InputForm.jsx lines 139 and 157); unused for the other fields. -/
def boundMsg : Field → String
  | .monthly_income => incomeBoundMsg
  | .monthly_expenses => expensesBoundMsg
  | _ => ""

/-- The per-field branch of `validateForm` (InputForm.jsx lines 54-99):
the body of the `forEach` over the five fields, with each `return`
modelled as producing the first error and checking no further. -/
def validateField (f : Field) (s : List Char) : Option String :=
  let rawValue := parseIndianNumber s
  if rawValue = [] then some requiredMsg
  else
    match jsParseFloat rawValue with
    | none => some invalidMsg
    | some numValue =>
      if numValue < 0 then some negativeMsg
      else if f = Field.monthly_income ∧ numValue = 0 then some zeroMsg
      else if 10000000000 < numValue then some limitMsg
      else if f = Field.monthly_income ∧ 150000 < numValue then some incomeBoundMsg
      else if f = Field.monthly_expenses ∧ 150000 < numValue then some expensesBoundMsg
      else none

/-- JavaScript `x || s` on a display string: the empty string is falsy. -/
def jsOrDefault (s d : List Char) : List Char := if s = [] then d else s

/-- The parse `parseFloat(parseIndianNumber(formData.f || '0'))` used by
`calculateTotalExpenses`, `calculateBalance` and the cross-field check. -/
def fieldNum (s : List Char) : Option ℚ :=
  jsParseFloat (parseIndianNumber (jsOrDefault s ['0']))

/-- Model of `calculateTotalExpenses` (InputForm.jsx lines 34-41); a NaN
summand makes the whole sum NaN. -/
def calculateTotalExpenses (fd : FormData) : Option ℚ :=
  match fieldNum fd.monthly_expenses, fieldNum fd.loan_emi,
      fieldNum fd.savings, fieldNum fd.investments with
  | some a, some b, some c, some d => some (a + b + c + d)
  | _, _, _, _ => none

/-- The parsed income `parseFloat(parseIndianNumber(formData.monthly_income || '0'))`. -/
def incomeNum (fd : FormData) : Option ℚ := fieldNum fd.monthly_income

/-- Model of `calculateBalance` (InputForm.jsx lines 43-48). -/
def calculateBalance (fd : FormData) : Option ℚ :=
  match incomeNum fd, calculateTotalExpenses fd with
  | some i, some t => some (i - t)
  | _, _ => none

/-- The cross-field condition of `validateForm` (InputForm.jsx lines
106-113): income and total allocation both parse and are positive, and the
balance misses zero by more than the tolerance of one unit. Any NaN
comparison is false, as in JavaScript. -/
def crossFails (fd : FormData) : Bool :=
  match incomeNum fd, calculateTotalExpenses fd with
  | some income, some total =>
      decide (0 < income) && decide (0 < total) && decide (1 < |income - total|)
  | _, _ => false

/-- The error object built by one run of `validateForm` (InputForm.jsx
lines 50-114): the per-field errors, all five overwritten by the
sum-mismatch messages when the cross-field check fails. -/
def validateFormErrors (fd : FormData) : Field → Option String :=
  fun f => if crossFails fd then some (sumMsg f) else validateField f (fd.get f)

/-- The boolean result of `validateForm` (InputForm.jsx line 117): the
fresh error object holds no key. -/
def validateFormPass (fd : FormData) : Bool :=
  (validateFormErrors fd Field.monthly_income).isNone &&
  (validateFormErrors fd Field.monthly_expenses).isNone &&
  (validateFormErrors fd Field.loan_emi).isNone &&
  (validateFormErrors fd Field.savings).isNone &&
  (validateFormErrors fd Field.investments).isNone

/-- The two pieces of React state of the entry form that the handlers
read and write: the display strings and the error map. A missing key and
an empty message are both falsy in the code, so the error map is modelled
as total with the empty string for "no error". -/
structure FormState where
  formData : FormData
  errors : Field → String

/-- Pointwise update of the error map (`setErrors(prev => ({...prev, [k]: m}))`). -/
def setErr (e : Field → String) (f : Field) (m : String) : Field → String :=
  fun g => if g = f then m else e g

/-- The `rawValue && !isNaN(parseFloat(rawValue))` guard paired with the
parse it protects: `some v` exactly when the raw string is non-empty and
parses to a finite number `v`. -/
def rawParses (rawValue : List Char) : Option ℚ :=
  if rawValue = [] then none else jsParseFloat rawValue

/-- The tail of `handleChange` (InputForm.jsx lines 169-184) shared by every
non-rejected keystroke: re-format the display string when the raw string
parses, store it, and clear the error of the edited field when it is neither
income nor expenses. -/
def storeAndClear (st : FormState) (name : Field) (rawValue finalValue : List Char) :
    FormState :=
  let finalValue2 :=
    match rawParses rawValue with
    | some _ => formatIndianRupee rawValue
    | none => finalValue
  let st2 : FormState := { st with formData := st.formData.set name finalValue2 }
  if st2.errors name ≠ "" ∧ name ≠ Field.monthly_income ∧ name ≠ Field.monthly_expenses then
    { st2 with errors := setErr st2.errors name "" }
  else st2

/-- Model of `handleChange` (InputForm.jsx lines 120-185) for one keystroke
delivering the raw text `value` to the field `name`. -/
def handleChange (st : FormState) (name : Field) (value : List Char) : FormState :=
  let sanitizedValue := jsSanitize value
  let finalValue := jsDecimalGuard sanitizedValue
  let rawValue := parseIndianNumber finalValue
  match name with
  | Field.monthly_income =>
      match rawParses rawValue with
      | some numValue =>
          if 150000 < numValue then
            { st with errors := setErr st.errors Field.monthly_income incomeBoundMsg }
          else
            let st1 :=
              if st.errors Field.monthly_income ≠ "" then
                { st with errors := setErr st.errors Field.monthly_income "" }
              else st
            storeAndClear st1 Field.monthly_income rawValue finalValue
      | none => storeAndClear st Field.monthly_income rawValue finalValue
  | Field.monthly_expenses =>
      match rawParses rawValue with
      | some numValue =>
          if 150000 < numValue then
            { st with errors := setErr st.errors Field.monthly_expenses expensesBoundMsg }
          else
            let st1 :=
              if st.errors Field.monthly_expenses ≠ "" then
                { st with errors := setErr st.errors Field.monthly_expenses "" }
              else st
            storeAndClear st1 Field.monthly_expenses rawValue finalValue
      | none => storeAndClear st Field.monthly_expenses rawValue finalValue
  | _ => storeAndClear st name rawValue finalValue

/-- The form state at mount and after `resetForm` (InputForm.jsx lines
10-17 and 187-196): five empty fields, no errors. -/
def initialFormState : FormState :=
  { formData := { monthly_income := [], monthly_expenses := [], loan_emi := [],
                  savings := [], investments := [] },
    errors := fun _ => "" }

/-- Outcome of the one-shot scoring request: a parsed success body, a
non-2xx response, or a transport failure. -/
inductive NetOutcome (α : Type) where
  | ok (result : α)
  | httpError
  | netFailure

/-- Observable result of one run of the submission orchestrator: the form
state it leaves behind, the request payload it sent (if any), the single
user-facing alert (if any), and the navigation payload handed to the
results view (if any). -/
structure SubmitEffects (α : Type) where
  finalState : FormState
  requested : Option (Field → Option ℚ)
  alerted : Option String
  navigated : Option (α × (Field → Option ℚ))

/-- The numeric record built on a passing submit (InputForm.jsx lines
208-214): `parseFloat(parseIndianNumber(formData.f))` per field. -/
def numericData (fd : FormData) : Field → Option ℚ :=
  fun f => jsParseFloat (parseIndianNumber (fd.get f))

/-- Model of `handleSubmit` (InputForm.jsx lines 198-240): run the full
validation pass (which rewrites the rendered error map), abort on failure,
otherwise send the numeric record and either navigate-and-reset on success
or alert on failure. -/
def handleSubmit {α : Type} (st : FormState) (outcome : NetOutcome α) : SubmitEffects α :=
  let newErrors := validateFormErrors st.formData
  let st1 : FormState := { st with errors := fun f => (newErrors f).getD "" }
  if validateFormPass st.formData then
    let nd := numericData st.formData
    match outcome with
    | .ok result =>
        { finalState := initialFormState, requested := some nd,
          alerted := none, navigated := some (result, nd) }
    | .httpError =>
        { finalState := st1, requested := some nd,
          alerted := some failAlertMsg, navigated := none }
    | .netFailure =>
        { finalState := st1, requested := some nd,
          alerted := some failAlertMsg, navigated := none }
  else
    { finalState := st1, requested := none, alerted := none, navigated := none }

/-- JavaScript truthiness of `income > 0` under a possible NaN. -/
def jsGtZero : Option ℚ → Bool
  | some q => decide (0 < q)
  | none => false

/-- JavaScript truthiness of `balance !== 0` under a possible NaN:
NaN is not strictly equal to 0, so the comparison is true. -/
def jsNeZero : Option ℚ → Bool
  | some q => decide (q ≠ 0)
  | none => true

/-- The `disabled` expression of the submit control (InputForm.jsx line
448): loading, or positive income with a non-zero balance, or a truthy
error on income or expenses. -/
def submitDisabled (isLoading : Bool) (st : FormState) : Bool :=
  isLoading
    || (jsGtZero (incomeNum st.formData) && jsNeZero (calculateBalance st.formData))
    || decide (st.errors Field.monthly_income ≠ "")
    || decide (st.errors Field.monthly_expenses ≠ "")

/-- The navigation-carried state read by the results view
(`location.state`, Dashboard.jsx line 12); destructuring against `{}` when
absent leaves `prediction` undefined. -/
structure NavState (α β : Type) where
  prediction : Option α
  formDataPayload : Option β

/-- The `prediction` the results view observes in its incoming payload. -/
def predictionOf {α β : Type} (s : Option (NavState α β)) : Option α :=
  match s with
  | none => none
  | some st => st.prediction

/-- The two externally visible actions the mount effect of the results view
can take (Dashboard.jsx lines 16-38). -/
inductive DashAction where
  | redirectHome
  | fetchHistory
deriving DecidableEq

/-- Model of the mount effect of the results view (Dashboard.jsx lines
16-38): a missing prediction redirects to the entry form and returns before
any fetch; otherwise the history fetch is issued. -/
def dashboardMount {α β : Type} (s : Option (NavState α β)) : List DashAction :=
  match predictionOf s with
  | none => [DashAction.redirectHome]
  | some _ => [DashAction.fetchHistory]

/-- Modelled from the spec section 4.3 steps 1-6, for comparison with the
code: the ordered list of per-field failure conditions with their messages,
of which the first failing one is reported. NaN comparisons are false. -/
def fieldChecks (f : Field) (s : List Char) : List (Bool × String) :=
  let rawValue := parseIndianNumber s
  let pv := jsParseFloat rawValue
  [ (decide (rawValue = []), requiredMsg),
    (pv.isNone, invalidMsg),
    ((match pv with | some v => decide (v < 0) | none => false), negativeMsg),
    (decide (f = Field.monthly_income) &&
       (match pv with | some v => decide (v = 0) | none => false), zeroMsg),
    ((match pv with | some v => decide (10000000000 < v) | none => false), limitMsg),
    (decide (f = Field.monthly_income) &&
       (match pv with | some v => decide (150000 < v) | none => false), incomeBoundMsg),
    (decide (f = Field.monthly_expenses) &&
       (match pv with | some v => decide (150000 < v) | none => false), expensesBoundMsg) ]

/-- The message of the first failing check, none when every check passes. -/
def firstFailing : List (Bool × String) → Option String
  | [] => none
  | (b, m) :: rest => if b then some m else firstFailing rest

/-- The stored-value invariant of the two bounded fields: whenever the
stored display string of income or expenses parses (after separator
stripping), its value is at most 150,000. -/
def storedBound (st : FormState) : Prop :=
  (∀ v : ℚ, jsParseFloat (parseIndianNumber (st.formData.get Field.monthly_income)) = some v →
      v ≤ 150000) ∧
  (∀ v : ℚ, jsParseFloat (parseIndianNumber (st.formData.get Field.monthly_expenses)) = some v →
      v ≤ 150000)

/-! ### Basic facts about digits, decimal rendering and parsing -/

theorem ratFloor_eq_floor (q : ℚ) : ratFloor q = ⌊q⌋ := (Rat.floor_def).symm

theorem digitChar_isDigit : ∀ d < 10, (digitChar d).isDigit = true := by decide

theorem digCharVal_digitChar : ∀ d < 10, digCharVal (digitChar d) = d := by decide

theorem isDigit_ne_comma {c : Char} (h : c.isDigit = true) : c ≠ ',' := by
  rintro rfl
  exact absurd h (by decide)

theorem isDigit_ne_dot {c : Char} (h : c.isDigit = true) : c ≠ '.' := by
  rintro rfl
  exact absurd h (by decide)

theorem valMsf_append (l : List Char) (c : Char) :
    valMsf (l ++ [c]) = 10 * valMsf l + digCharVal c := by
  simp [valMsf, List.foldl_append]

theorem toDecRevAux_val (fuel : Nat) :
    ∀ n, n < fuel → valMsf (toDecRevAux fuel n).reverse = n := by
  induction fuel with
  | zero => omega
  | succ f ih =>
      intro n hn
      rw [toDecRevAux]
      split
      · next h10 =>
          simp [valMsf, digCharVal_digitChar n h10]
      · next h10 =>
          have hdiv : n / 10 < f := by
            have := Nat.div_lt_self (show 0 < n by omega) (show 1 < 10 by omega)
            omega
          simp only [List.reverse_cons, valMsf_append, ih (n / 10) hdiv,
            digCharVal_digitChar (n % 10) (Nat.mod_lt n (by omega))]
          omega

theorem toDecRev_val (n : Nat) : valMsf (toDecRev n).reverse = n :=
  toDecRevAux_val (n + 1) n (Nat.lt_succ_self n)

theorem toDecRevAux_digits (fuel : Nat) :
    ∀ n, ∀ c ∈ toDecRevAux fuel n, c.isDigit = true := by
  induction fuel with
  | zero => intro n c hc; simp [toDecRevAux] at hc
  | succ f ih =>
      intro n c hc
      rw [toDecRevAux] at hc
      split at hc
      · next h10 =>
          simp at hc
          exact hc ▸ digitChar_isDigit n h10
      · next h10 =>
          simp at hc
          rcases hc with rfl | hc
          · exact digitChar_isDigit (n % 10) (Nat.mod_lt n (by omega))
          · exact ih (n / 10) c hc

theorem toDecRev_digits (n : Nat) : ∀ c ∈ toDecRev n, c.isDigit = true :=
  toDecRevAux_digits (n + 1) n

theorem toDecRev_ne_nil (n : Nat) : toDecRev n ≠ [] := by
  rw [toDecRev, toDecRevAux]
  split <;> simp

theorem parseIndianNumber_cons_comma (l : List Char) :
    parseIndianNumber (',' :: l) = parseIndianNumber l := by
  simp [parseIndianNumber]

theorem parseIndianNumber_append (l1 l2 : List Char) :
    parseIndianNumber (l1 ++ l2) = parseIndianNumber l1 ++ parseIndianNumber l2 := by
  simp [parseIndianNumber]

theorem parseIndianNumber_chunkRev2 (l : List Char) :
    parseIndianNumber (chunkRev2 l) = parseIndianNumber l := by
  induction l using chunkRev2.induct with
  | case1 => rfl
  | case2 => rfl
  | case3 => rfl
  | case4 a b c rest ih =>
      show parseIndianNumber ([a, b] ++ ',' :: chunkRev2 (c :: rest)) =
        parseIndianNumber ([a, b] ++ c :: rest)
      rw [parseIndianNumber_append, parseIndianNumber_cons_comma, ih,
        parseIndianNumber_append]

theorem parseIndianNumber_indianGroupRev (rds : List Char) :
    parseIndianNumber (indianGroupRev rds) = parseIndianNumber rds := by
  rw [indianGroupRev]
  split
  · rfl
  · rw [show (',' :: chunkRev2 (rds.drop 3)) = [','] ++ chunkRev2 (rds.drop 3) from rfl,
      parseIndianNumber_append, parseIndianNumber_append,
      show parseIndianNumber [','] = [] from rfl, parseIndianNumber_chunkRev2,
      List.nil_append, ← parseIndianNumber_append, List.take_append_drop]

theorem parseIndianNumber_formatNatIndian (n : Nat) :
    parseIndianNumber (formatNatIndian n) = (toDecRev n).reverse := by
  rw [formatNatIndian, parseIndianNumber, List.filter_reverse, ← parseIndianNumber,
    parseIndianNumber_indianGroupRev, parseIndianNumber,
    List.filter_eq_self.mpr]
  intro c hc
  simpa using isDigit_ne_comma (toDecRev_digits n c hc)

theorem takeWhile_all {p : Char → Bool} (l : List Char) (h : ∀ c ∈ l, p c = true) :
    l.takeWhile p = l := by
  induction l with
  | nil => rfl
  | cons c cs ih =>
      rw [List.takeWhile_cons, h c (by simp)]
      simp [ih fun d hd => h d (by simp [hd])]

theorem dropWhile_all {p : Char → Bool} (l : List Char) (h : ∀ c ∈ l, p c = true) :
    l.dropWhile p = [] := by
  induction l with
  | nil => rfl
  | cons c cs ih =>
      rw [List.dropWhile_cons, h c (by simp)]
      simp [ih fun d hd => h d (by simp [hd])]

theorem jsParseFloat_digits (ds : List Char) (hne : ds ≠ [])
    (hd : ∀ c ∈ ds, c.isDigit = true) :
    jsParseFloat ds = some ((valMsf ds : ℚ)) := by
  rw [jsParseFloat]
  simp only [takeWhile_all ds hd, dropWhile_all ds hd]
  simp [hne]

theorem jsParseFloat_nonneg {cs : List Char} {v : ℚ} (h : jsParseFloat cs = some v) :
    0 ≤ v := by
  rw [jsParseFloat] at h
  dsimp only at h
  split at h
  · split at h
    · exact absurd h (by simp)
    · rw [Option.some_inj] at h
      subst h
      positivity
  · split at h
    · exact absurd h (by simp)
    · rw [Option.some_inj] at h
      subst h
      positivity

theorem roundHalfExpand_of_nonneg {v : ℚ} (h : 0 ≤ v) :
    roundHalfExpand v = ⌊v + 1 / 2⌋ := by
  rw [roundHalfExpand, if_pos h, ratFloor_eq_floor]

theorem roundHalfExpand_nonneg {v : ℚ} (h : 0 ≤ v) : 0 ≤ roundHalfExpand v := by
  rw [roundHalfExpand_of_nonneg h]
  exact Int.le_floor.mpr (by push_cast; linarith)

theorem roundHalfExpand_le {v : ℚ} {B : ℕ} (h0 : 0 ≤ v) (h : v ≤ B) :
    roundHalfExpand v ≤ B := by
  rw [roundHalfExpand_of_nonneg h0]
  have h1 : ⌊v + 1 / 2⌋ ≤ ⌊(B : ℚ) + 1 / 2⌋ := Int.floor_mono (by linarith)
  have h2 : ⌊(B : ℚ) + 1 / 2⌋ = B := by
    rw [Int.floor_eq_iff]
    constructor
    · push_cast; linarith
    · push_cast; linarith
  omega

theorem roundHalfExpand_intCast (n : ℕ) : roundHalfExpand (n : ℚ) = n := by
  rw [roundHalfExpand_of_nonneg (by positivity)]
  rw [Int.floor_eq_iff]
  constructor
  · push_cast; linarith
  · push_cast; linarith

theorem formatQ_of_nonneg {v : ℚ} (h : 0 ≤ v) :
    formatQ v = formatNatIndian (roundHalfExpand v).toNat := by
  have h2 : ¬ roundHalfExpand v < 0 := by
    have := roundHalfExpand_nonneg h
    omega
  simp only [formatQ, h2, if_false]

theorem jsParseFloat_parseIndianNumber_formatNatIndian (n : Nat) :
    jsParseFloat (parseIndianNumber (formatNatIndian n)) = some ((n : ℚ)) := by
  rw [parseIndianNumber_formatNatIndian,
    jsParseFloat_digits _ (by simp [toDecRev_ne_nil n]) (by simpa using toDecRev_digits n),
    toDecRev_val]

theorem jsParseFloat_parseIndianNumber_formatQ {v : ℚ} (h : 0 ≤ v) :
    jsParseFloat (parseIndianNumber (formatQ v)) =
      some (((roundHalfExpand v).toNat : ℚ)) := by
  rw [formatQ_of_nonneg h, jsParseFloat_parseIndianNumber_formatNatIndian]

theorem mem_chunkRev2 {c : Char} {l : List Char} (h : c ∈ chunkRev2 l) :
    c ∈ l ∨ c = ',' := by
  induction l using chunkRev2.induct with
  | case1 => simp [chunkRev2] at h
  | case2 a => simp [chunkRev2] at h; simp [h]
  | case3 a b => simp [chunkRev2] at h; rcases h with rfl | rfl <;> simp
  | case4 a b d rest ih =>
      simp only [chunkRev2, List.mem_cons] at h
      rcases h with rfl | rfl | rfl | h
      · simp
      · simp
      · simp
      · rcases ih h with h2 | h2
        · simp only [List.mem_cons] at h2 ⊢
          tauto
        · exact Or.inr h2

theorem mem_indianGroupRev {c : Char} {rds : List Char} (h : c ∈ indianGroupRev rds) :
    c ∈ rds ∨ c = ',' := by
  rw [indianGroupRev] at h
  split at h
  · exact Or.inl h
  · simp only [List.mem_append, List.mem_cons] at h
    rcases h with h | h | h
    · exact Or.inl (List.mem_of_mem_take h)
    · exact Or.inr h
    · rcases mem_chunkRev2 h with h2 | h2
      · exact Or.inl (List.mem_of_mem_drop h2)
      · exact Or.inr h2

theorem dot_not_mem_formatNatIndian (n : Nat) : '.' ∉ formatNatIndian n := by
  rw [formatNatIndian]
  intro h
  rw [List.mem_reverse] at h
  rcases mem_indianGroupRev h with h2 | h2
  · exact isDigit_ne_dot (toDecRev_digits n _ h2) rfl
  · exact absurd h2 (by decide)

theorem dot_not_mem_formatQ (q : ℚ) : '.' ∉ formatQ q := by
  rw [formatQ]
  split
  · intro h
    rcases List.mem_cons.mp h with h2 | h2
    · exact absurd h2 (by decide)
    · exact dot_not_mem_formatNatIndian _ h2
  · exact dot_not_mem_formatNatIndian _

theorem splitDots_ne_nil (cs : List Char) : splitDots cs ≠ [] := by
  induction cs with
  | nil => simp [splitDots]
  | cons c cs ih =>
      rw [splitDots]
      split
      · simp
      · cases h : splitDots cs with
        | nil => exact absurd h ih
        | cons p ps => simp [h]

theorem splitDots_length (cs : List Char) :
    (splitDots cs).length = cs.count '.' + 1 := by
  induction cs with
  | nil => simp [splitDots]
  | cons c cs ih =>
      rw [splitDots]
      split
      · next hc =>
          subst hc
          simp [ih, List.count_cons]
      · next hc =>
          cases h : splitDots cs with
          | nil => exact absurd h (splitDots_ne_nil cs)
          | cons p ps =>
              have : (p :: ps).length = cs.count '.' + 1 := h ▸ ih
              simp only [List.length_cons] at this ⊢
              simp [List.count_cons, hc, this]

/-! ### Facts about the form model -/

theorem validateFormPass_iff (fd : FormData) :
    validateFormPass fd = true ↔ ∀ f, validateFormErrors fd f = none := by
  rw [validateFormPass]
  simp only [Bool.and_eq_true, Option.isNone_iff_eq_none]
  constructor
  · rintro ⟨⟨⟨⟨h1, h2⟩, h3⟩, h4⟩, h5⟩ f
    cases f <;> assumption
  · intro h
    exact ⟨⟨⟨⟨h _, h _⟩, h _⟩, h _⟩, h _⟩

theorem FormData.get_set_self (fd : FormData) (f : Field) (v : List Char) :
    (fd.set f v).get f = v := by
  cases f <;> rfl

theorem FormData.get_set_ne (fd : FormData) (f g : Field) (v : List Char) (h : g ≠ f) :
    (fd.set f v).get g = fd.get g := by
  cases f <;> cases g <;> first | rfl | exact absurd rfl h

theorem storeAndClear_formData (st : FormState) (name : Field) (raw fin : List Char) :
    (storeAndClear st name raw fin).formData =
      st.formData.set name
        (match rawParses raw with
          | some _ => formatIndianRupee raw
          | none => fin) := by
  rw [storeAndClear]
  split <;> rfl

theorem storeAndClear_errors_bounded (st : FormState) (name : Field) (raw fin : List Char)
    (h : name = Field.monthly_income ∨ name = Field.monthly_expenses) :
    (storeAndClear st name raw fin).errors = st.errors := by
  rw [storeAndClear]
  split
  · next hcond => exact absurd h (by tauto)
  · rfl

theorem rawParses_some_ne_nil {raw : List Char} {v : ℚ} (h : rawParses raw = some v) :
    raw ≠ [] := by
  intro hne
  rw [hne, rawParses] at h
  simp at h

theorem rawParses_some_parse {raw : List Char} {v : ℚ} (h : rawParses raw = some v) :
    jsParseFloat raw = some v := by
  rw [rawParses, if_neg (rawParses_some_ne_nil h)] at h
  exact h

theorem formatIndianRupee_of_rawParses {raw : List Char} {v : ℚ}
    (h : rawParses raw = some v) :
    formatIndianRupee raw = formatQ v := by
  rw [formatIndianRupee, if_neg (rawParses_some_ne_nil h), rawParses_some_parse h]

theorem rawParses_none_parse {raw : List Char} (h : rawParses raw = none) :
    jsParseFloat raw = none := by
  rw [rawParses] at h
  by_cases hne : raw = []
  · rw [hne]
    rfl
  · rwa [if_neg hne] at h

theorem clearPrior_formData (st : FormState) (f : Field) :
    (if st.errors f ≠ "" then { st with errors := setErr st.errors f "" } else st).formData =
      st.formData := by
  split <;> rfl

theorem crossFails_of_parses {fd : FormData} {i t : ℚ}
    (hi : incomeNum fd = some i) (ht : calculateTotalExpenses fd = some t)
    (hi0 : 0 < i) (ht0 : 0 < t) :
    crossFails fd = decide (1 < |i - t|) := by
  simp [crossFails, hi, ht, hi0, ht0]

theorem validateFormPass_of_fields {fd : FormData} {i t : ℚ}
    (hpf : ∀ f, validateField f (fd.get f) = none)
    (hi : incomeNum fd = some i) (ht : calculateTotalExpenses fd = some t)
    (hi0 : 0 < i) (ht0 : 0 < t) (hle : |i - t| ≤ 1) :
    validateFormPass fd = true := by
  rw [validateFormPass_iff]
  intro f
  rw [validateFormErrors, crossFails_of_parses hi ht hi0 ht0]
  simp [not_lt.mpr hle, hpf f]

/-! ### Claim theorems -/

/-- C7: for every raw input text, the normalizer first strips every
character that is not a digit, decimal point, or comma; then, if the
filtered text contains more than one decimal point, the candidate value is
the filtered text with exactly its last character dropped, otherwise the
filtered text itself. The code pipeline (character filter followed by the
split-based decimal guard) coincides with this description. -/
theorem C7_normalizer_matches_spec (value : List Char) :
    jsDecimalGuard (jsSanitize value) = specNormalize value := by
  simp only [jsDecimalGuard, specNormalize, jsSanitize, splitDots_length,
    Nat.add_sub_cancel]

/-- C10: the currency formatter used by both views returns the empty string
for the numeric value 0 and for any falsy input, so a zero amount is
rendered as blank rather than as the digit 0. -/
theorem C10_zero_renders_blank :
    formatIndianRupeeDash (some 0) = [] ∧ formatIndianRupeeDash none = [] ∧
    formatIndianRupeeNum (some 0) = [] ∧ formatIndianRupeeNum none = [] ∧
    formatIndianRupeeDash (some 0) ≠ ['0'] := by
  refine ⟨by simp [formatIndianRupeeDash], rfl, by simp [formatIndianRupeeNum], rfl, ?_⟩
  simp [formatIndianRupeeDash]

/-- C8: the results view issues the history fetch only after observing that
a prediction result exists in its incoming navigation payload; whenever the
payload is absent it redirects to the entry form and issues no network
request. -/
theorem C8_history_fetch_gated (α β : Type) (s : Option (NavState α β)) :
    (DashAction.fetchHistory ∈ dashboardMount s → predictionOf s ≠ none) ∧
    (predictionOf s = none →
      dashboardMount s = [DashAction.redirectHome] ∧
      DashAction.fetchHistory ∉ dashboardMount s) := by
  cases h : predictionOf s <;> simp [dashboardMount, h]

/-- Witness for C8: with no navigation payload at all, the mount effect is
exactly the redirect and the history fetch is absent. -/
theorem C8_witness :
    dashboardMount (none : Option (NavState Unit Unit)) = [DashAction.redirectHome] ∧
    DashAction.fetchHistory ∉ dashboardMount (none : Option (NavState Unit Unit)) :=
  (C8_history_fetch_gated Unit Unit none).2 rfl

unseal Rat.add Rat.sub Rat.mul Rat.inv in
/-- Counterexample for C4 as stated: the raw numeric string 0.5 is below
the sanity ceiling, yet formatting it (which rounds to zero fraction
digits) and stripping separators parses to 1, not to the original 1/2. -/
theorem C4_counterexample :
    jsParseFloat ['0', '.', '5'] = some (1 / 2) ∧ ((1 : ℚ) / 2) < 10000000000 ∧
    jsParseFloat (parseIndianNumber (formatIndianRupee ['0', '.', '5'])) = some 1 ∧
    ((1 : ℚ)) ≠ 1 / 2 := by
  refine ⟨by decide, by decide, by decide, by decide⟩

/-- C4 (amended): for every raw numeric string made of digits only (an
integer value, which every stored display string stripped of separators is)
whose value is below the sanity ceiling, formatting with the locale display
formatter and stripping the grouping separators yields a string that parses
to exactly the original numeric value. -/
theorem C4_roundtrip_integer_strings (cs : List Char) (hne : cs ≠ [])
    (hd : ∀ c ∈ cs, c.isDigit = true) (hceil : valMsf cs < 10000000000) :
    jsParseFloat (parseIndianNumber (formatIndianRupee cs)) = jsParseFloat cs ∧
    jsParseFloat cs = some ((valMsf cs : ℚ)) := by
  have hp := jsParseFloat_digits cs hne hd
  have hfmt : formatIndianRupee cs = formatQ ((valMsf cs : ℚ)) := by
    rw [formatIndianRupee, if_neg hne, hp]
  refine ⟨?_, hp⟩
  rw [hfmt, jsParseFloat_parseIndianNumber_formatQ (by positivity),
    roundHalfExpand_intCast, hp]
  simp

/-- Witness for C4 (amended): the digit string 1234567 formats to
12,34,567 and round-trips exactly. -/
theorem C4_witness :
    jsParseFloat (parseIndianNumber (formatIndianRupee ['1', '2', '3', '4', '5', '6', '7'])) =
      jsParseFloat ['1', '2', '3', '4', '5', '6', '7'] ∧
    jsParseFloat ['1', '2', '3', '4', '5', '6', '7'] =
      some ((valMsf ['1', '2', '3', '4', '5', '6', '7'] : ℚ)) :=
  C4_roundtrip_integer_strings _ (by decide) (by decide) (by decide)

/-- C5: in the full validation pass each field is checked in the fixed
order empty, unparseable, negative, zero income, sanity ceiling, 150,000
bound, stopping at the first failure (the per-field branch equals the
first failing check of the spec's ordered list); a field that is empty
after separator stripping always receives the required-field error; and a
parsed value of exactly zero produces an error if and only if the field is
income. -/
theorem C5_field_check_order :
    (∀ (f : Field) (s : List Char), validateField f s = firstFailing (fieldChecks f s)) ∧
    (∀ (f : Field) (s : List Char), parseIndianNumber s = [] →
      validateField f s = some requiredMsg) ∧
    (∀ (f : Field) (s : List Char), jsParseFloat (parseIndianNumber s) = some 0 →
      (validateField f s = none ↔ f ≠ Field.monthly_income) ∧
      (f = Field.monthly_income → validateField f s = some zeroMsg)) := by
  refine ⟨?_, ?_, ?_⟩
  · intro f s
    by_cases hraw : parseIndianNumber s = []
    · simp [validateField, fieldChecks, firstFailing, hraw]
    · cases hv : jsParseFloat (parseIndianNumber s) with
      | none => simp [validateField, fieldChecks, firstFailing, hraw, hv]
      | some v =>
          simp only [validateField, fieldChecks, firstFailing, hraw, hv,
            decide_eq_true_eq, Bool.and_eq_true, Option.isNone_some,
            Bool.false_eq_true, if_false]
  · intro f s h
    simp [validateField, h]
  · intro f s h
    have hraw : parseIndianNumber s ≠ [] := by
      intro he
      rw [he] at h
      simp [jsParseFloat] at h
    cases f <;> simp [validateField, hraw, h] <;> norm_num

/-- Witness for C5: the empty income field gets the required message, a
zero expenses field passes the per-field checks, and a zero income field
gets the zero-income message. -/
theorem C5_witness :
    validateField Field.monthly_income [] = some requiredMsg ∧
    validateField Field.monthly_expenses ['0'] = none ∧
    validateField Field.monthly_income ['0'] = some zeroMsg := by
  refine ⟨C5_field_check_order.2.1 Field.monthly_income [] rfl, ?_, ?_⟩
  · exact ((C5_field_check_order.2.2 Field.monthly_expenses ['0'] (by decide)).1).mpr
      (by decide)
  · exact (C5_field_check_order.2.2 Field.monthly_income ['0'] (by decide)).2 rfl

/-- C1: when each of the five fields individually passes the per-field
checks and both the parsed income and the parsed total allocation are
positive, the full validation pass succeeds exactly when the balance is
within the one-unit tolerance, and when it fails for this reason every
field carries its sum-mismatch message. -/
theorem C1_cross_field_tolerance (fd : FormData) (i t : ℚ)
    (hpf : ∀ f, validateField f (fd.get f) = none)
    (hi : incomeNum fd = some i) (hi0 : 0 < i)
    (ht : calculateTotalExpenses fd = some t) (ht0 : 0 < t) :
    (validateFormPass fd = true ↔ |i - t| ≤ 1) ∧
    (1 < |i - t| → ∀ f, validateFormErrors fd f = some (sumMsg f)) := by
  have hcross := crossFails_of_parses hi ht hi0 ht0
  constructor
  · constructor
    · intro h
      rw [validateFormPass_iff] at h
      by_contra hlt
      push_neg at hlt
      have h2 := h Field.monthly_income
      rw [validateFormErrors, hcross] at h2
      simp [hlt] at h2
    · exact validateFormPass_of_fields hpf hi ht hi0 ht0
  · intro hlt f
    rw [validateFormErrors, hcross]
    simp [hlt]

unseal Rat.add Rat.sub Rat.mul Rat.inv in
/-- Witness for C1: a form with income 4 allocated as 1 + 1 + 1 + 1 passes
the full validation pass. -/
theorem C1_witness :
    validateFormPass
      { monthly_income := ['4'], monthly_expenses := ['1'], loan_emi := ['1'],
        savings := ['1'], investments := ['1'] } = true :=
  (C1_cross_field_tolerance _ 4 4
    (by intro f; cases f <;> decide) (by decide) (by norm_num)
    (by decide) (by norm_num)).1.mpr (by norm_num)

/-- C2: for every keystroke on the income or expenses field whose sanitized
raw text parses above 150,000, the stored display strings are unchanged and
the bound-violation error is recorded on that field; if the parsed value is
within the bound and a prior error exists on the field it is cleared
immediately; consequently the stored income and expenses values never
exceed 150,000 (the bound is an invariant of the keystroke handler, and it
holds of the initial state). -/
theorem C2_realtime_bound (st : FormState) (name : Field) (value : List Char) :
    ((name = Field.monthly_income ∨ name = Field.monthly_expenses) →
      ∀ v : ℚ, rawParses (parseIndianNumber (jsDecimalGuard (jsSanitize value))) = some v →
        150000 < v →
        (handleChange st name value).formData = st.formData ∧
        (handleChange st name value).errors name = boundMsg name) ∧
    ((name = Field.monthly_income ∨ name = Field.monthly_expenses) →
      ∀ v : ℚ, rawParses (parseIndianNumber (jsDecimalGuard (jsSanitize value))) = some v →
        v ≤ 150000 → st.errors name ≠ "" →
        (handleChange st name value).errors name = "") ∧
    (storedBound st → storedBound (handleChange st name value)) ∧
    storedBound initialFormState := by
  refine ⟨?_, ?_, ?_, ?_⟩
  · rintro (rfl | rfl) v hp hv <;>
    · simp only [handleChange, hp, if_pos hv]
      simp [setErr, boundMsg]
  · rintro (rfl | rfl) v hp hv herr <;>
    · simp only [handleChange, hp, if_neg (not_lt.mpr hv)]
      rw [storeAndClear_errors_bounded _ _ _ _ (by simp), if_pos herr]
      simp [setErr]
  · intro hB
    cases name with
    | monthly_income =>
        cases hp : rawParses (parseIndianNumber (jsDecimalGuard (jsSanitize value))) with
        | some v =>
            by_cases hv : 150000 < v
            · simp only [handleChange, hp, if_pos hv]
              exact hB
            · simp only [handleChange, hp, if_neg hv]
              have hvle : v ≤ 150000 := not_lt.mp hv
              have hv0 : 0 ≤ v := jsParseFloat_nonneg (rawParses_some_parse hp)
              constructor
              · intro w hw
                rw [storeAndClear_formData, hp] at hw
                rw [FormData.get_set_self, formatIndianRupee_of_rawParses hp,
                  jsParseFloat_parseIndianNumber_formatQ hv0] at hw
                rw [Option.some_inj] at hw
                subst hw
                have h1 : roundHalfExpand v ≤ (150000 : ℕ) := roundHalfExpand_le hv0 (by exact_mod_cast hvle)
                have h2 : (roundHalfExpand v).toNat ≤ 150000 := by omega
                exact_mod_cast Nat.cast_le.mpr h2
              · intro w hw
                rw [storeAndClear_formData, hp,
                  FormData.get_set_ne _ _ _ _ (by simp), clearPrior_formData] at hw
                exact hB.2 w hw
        | none =>
            simp only [handleChange, hp]
            constructor
            · intro w hw
              rw [storeAndClear_formData, hp, FormData.get_set_self] at hw
              rw [rawParses_none_parse hp] at hw
              exact absurd hw (by simp)
            · intro w hw
              rw [storeAndClear_formData, hp,
                FormData.get_set_ne _ _ _ _ (by simp)] at hw
              exact hB.2 w hw
    | monthly_expenses =>
        cases hp : rawParses (parseIndianNumber (jsDecimalGuard (jsSanitize value))) with
        | some v =>
            by_cases hv : 150000 < v
            · simp only [handleChange, hp, if_pos hv]
              exact hB
            · simp only [handleChange, hp, if_neg hv]
              have hvle : v ≤ 150000 := not_lt.mp hv
              have hv0 : 0 ≤ v := jsParseFloat_nonneg (rawParses_some_parse hp)
              constructor
              · intro w hw
                rw [storeAndClear_formData, hp,
                  FormData.get_set_ne _ _ _ _ (by simp), clearPrior_formData] at hw
                exact hB.1 w hw
              · intro w hw
                rw [storeAndClear_formData, hp] at hw
                rw [FormData.get_set_self, formatIndianRupee_of_rawParses hp,
                  jsParseFloat_parseIndianNumber_formatQ hv0] at hw
                rw [Option.some_inj] at hw
                subst hw
                have h1 : roundHalfExpand v ≤ (150000 : ℕ) := roundHalfExpand_le hv0 (by exact_mod_cast hvle)
                have h2 : (roundHalfExpand v).toNat ≤ 150000 := by omega
                exact_mod_cast Nat.cast_le.mpr h2
        | none =>
            simp only [handleChange, hp]
            constructor
            · intro w hw
              rw [storeAndClear_formData, hp,
                FormData.get_set_ne _ _ _ _ (by simp)] at hw
              exact hB.1 w hw
            · intro w hw
              rw [storeAndClear_formData, hp, FormData.get_set_self] at hw
              rw [rawParses_none_parse hp] at hw
              exact absurd hw (by simp)
    | loan_emi =>
        simp only [handleChange]
        constructor
        · intro w hw
          rw [storeAndClear_formData, FormData.get_set_ne _ _ _ _ (by simp)] at hw
          exact hB.1 w hw
        · intro w hw
          rw [storeAndClear_formData, FormData.get_set_ne _ _ _ _ (by simp)] at hw
          exact hB.2 w hw
    | savings =>
        simp only [handleChange]
        constructor
        · intro w hw
          rw [storeAndClear_formData, FormData.get_set_ne _ _ _ _ (by simp)] at hw
          exact hB.1 w hw
        · intro w hw
          rw [storeAndClear_formData, FormData.get_set_ne _ _ _ _ (by simp)] at hw
          exact hB.2 w hw
    | investments =>
        simp only [handleChange]
        constructor
        · intro w hw
          rw [storeAndClear_formData, FormData.get_set_ne _ _ _ _ (by simp)] at hw
          exact hB.1 w hw
        · intro w hw
          rw [storeAndClear_formData, FormData.get_set_ne _ _ _ _ (by simp)] at hw
          exact hB.2 w hw
  · constructor <;>
    · intro w hw
      exact absurd hw (by simp [initialFormState, FormData.get, jsParseFloat, parseIndianNumber])

unseal Rat.add Rat.sub Rat.mul Rat.inv in
/-- Witness for C2: typing 200000 into the empty income field leaves the
stored form data unchanged and records the income ceiling error. -/
theorem C2_witness :
    (handleChange initialFormState Field.monthly_income
        ['2', '0', '0', '0', '0', '0']).formData = initialFormState.formData ∧
    (handleChange initialFormState Field.monthly_income
        ['2', '0', '0', '0', '0', '0']).errors Field.monthly_income =
      boundMsg Field.monthly_income :=
  (C2_realtime_bound initialFormState Field.monthly_income
      ['2', '0', '0', '0', '0', '0']).1 (Or.inl rfl) 200000 (by decide) (by decide)

/-- C6: for every accepted keystroke (one the real-time ceiling check does
not reject), if the separator-stripped raw string parses to a finite
number then the stored display string is that number re-rendered in the
locale digit-grouping format with no fractional digits (in particular it
holds no decimal point); otherwise the stored display string is the
filtered text unchanged. -/
theorem C6_display_reformat (st : FormState) (name : Field) (value : List Char)
    (hacc : ∀ v : ℚ, (name = Field.monthly_income ∨ name = Field.monthly_expenses) →
      rawParses (parseIndianNumber (jsDecimalGuard (jsSanitize value))) = some v →
      v ≤ 150000) :
    (∀ v : ℚ, rawParses (parseIndianNumber (jsDecimalGuard (jsSanitize value))) = some v →
      (handleChange st name value).formData.get name = formatQ v ∧
      '.' ∉ (handleChange st name value).formData.get name) ∧
    (rawParses (parseIndianNumber (jsDecimalGuard (jsSanitize value))) = none →
      (handleChange st name value).formData.get name = jsDecimalGuard (jsSanitize value)) := by
  constructor
  · intro v hp
    have hfmt : (handleChange st name value).formData.get name = formatQ v := by
      cases name with
      | monthly_income =>
          have hv := hacc v (Or.inl rfl) hp
          simp only [handleChange, hp, if_neg (not_lt.mpr hv)]
          rw [storeAndClear_formData, hp, FormData.get_set_self,
            formatIndianRupee_of_rawParses hp]
      | monthly_expenses =>
          have hv := hacc v (Or.inr rfl) hp
          simp only [handleChange, hp, if_neg (not_lt.mpr hv)]
          rw [storeAndClear_formData, hp, FormData.get_set_self,
            formatIndianRupee_of_rawParses hp]
      | loan_emi =>
          simp only [handleChange]
          rw [storeAndClear_formData, hp, FormData.get_set_self,
            formatIndianRupee_of_rawParses hp]
      | savings =>
          simp only [handleChange]
          rw [storeAndClear_formData, hp, FormData.get_set_self,
            formatIndianRupee_of_rawParses hp]
      | investments =>
          simp only [handleChange]
          rw [storeAndClear_formData, hp, FormData.get_set_self,
            formatIndianRupee_of_rawParses hp]
    exact ⟨hfmt, hfmt ▸ dot_not_mem_formatQ v⟩
  · intro hp
    cases name with
    | monthly_income =>
        simp only [handleChange, hp]
        rw [storeAndClear_formData, hp, FormData.get_set_self]
    | monthly_expenses =>
        simp only [handleChange, hp]
        rw [storeAndClear_formData, hp, FormData.get_set_self]
    | loan_emi =>
        simp only [handleChange]
        rw [storeAndClear_formData, hp, FormData.get_set_self]
    | savings =>
        simp only [handleChange]
        rw [storeAndClear_formData, hp, FormData.get_set_self]
    | investments =>
        simp only [handleChange]
        rw [storeAndClear_formData, hp, FormData.get_set_self]

unseal Rat.add Rat.sub Rat.mul Rat.inv in
/-- Witness for C6: typing 1234567 followed by a decimal point into the
loan field stores the grouped rendering 12,34,567. -/
theorem C6_witness :
    (handleChange initialFormState Field.loan_emi
        ['1', '2', '3', '4', '5', '6', '7', '.']).formData.get Field.loan_emi =
      formatQ 1234567 ∧
    '.' ∉ (handleChange initialFormState Field.loan_emi
        ['1', '2', '3', '4', '5', '6', '7', '.']).formData.get Field.loan_emi :=
  (C6_display_reformat initialFormState Field.loan_emi
      ['1', '2', '3', '4', '5', '6', '7', '.']
      (fun v h => by rcases h with h | h <;> exact absurd h (by decide))).1
    1234567 (by decide)

unseal Rat.add Rat.sub Rat.mul Rat.inv in
/-- Counterexample for C3 as stated: a form whose five fields pass
validation but which still carries a stale sum-mismatch error on the loan
field from an earlier failed pass. On a non-2xx response the orchestrator
surfaces the alert, yet the stale error is not left unchanged: the passing
validation pass has replaced the error map, clearing it. -/
theorem C3_counterexample :
    (handleSubmit
        { formData := { monthly_income := ['4'], monthly_expenses := ['1'],
                        loan_emi := ['1'], savings := ['1'], investments := ['1'] },
          errors := fun f => if f = Field.loan_emi then otherSumMsg else "" }
        (NetOutcome.httpError : NetOutcome Unit)).alerted = some failAlertMsg ∧
    ¬ ((handleSubmit
        { formData := { monthly_income := ['4'], monthly_expenses := ['1'],
                        loan_emi := ['1'], savings := ['1'], investments := ['1'] },
          errors := fun f => if f = Field.loan_emi then otherSumMsg else "" }
        (NetOutcome.httpError : NetOutcome Unit)).finalState.errors Field.loan_emi =
      (fun f : Field => if f = Field.loan_emi then otherSumMsg else "")
        Field.loan_emi) := by
  constructor
  · decide
  · decide

/-- C3 (amended): the submission orchestrator (a) issues no network
request, shows no alert, navigates nowhere and changes no state beyond the
rendered errors when the full validation pass fails; (b) on a non-2xx
response or network failure, surfaces the single failure alert and leaves
the five field values unchanged, while the error map is the one freshly
computed by the passing validation pass (empty, so stale errors are
cleared rather than left unchanged); (c) on success, hands the parsed
response plus the numeric input record to the results view and resets all
fields and errors. -/
theorem C3_submit_orchestrator {α : Type} (st : FormState) (outcome : NetOutcome α) :
    (validateFormPass st.formData = false →
      (handleSubmit st outcome).requested = none ∧
      (handleSubmit st outcome).alerted = none ∧
      (handleSubmit st outcome).navigated = none ∧
      (handleSubmit st outcome).finalState.formData = st.formData ∧
      ∀ f, (handleSubmit st outcome).finalState.errors f =
        (validateFormErrors st.formData f).getD "") ∧
    (validateFormPass st.formData = true →
      (outcome = NetOutcome.httpError ∨ outcome = NetOutcome.netFailure) →
      (handleSubmit st outcome).alerted = some failAlertMsg ∧
      (handleSubmit st outcome).requested = some (numericData st.formData) ∧
      (handleSubmit st outcome).navigated = none ∧
      (handleSubmit st outcome).finalState.formData = st.formData ∧
      ∀ f, (handleSubmit st outcome).finalState.errors f = "") ∧
    (∀ r : α, validateFormPass st.formData = true → outcome = NetOutcome.ok r →
      (handleSubmit st outcome).navigated = some (r, numericData st.formData) ∧
      (handleSubmit st outcome).requested = some (numericData st.formData) ∧
      (handleSubmit st outcome).alerted = none ∧
      (handleSubmit st outcome).finalState = initialFormState) := by
  refine ⟨?_, ?_, ?_⟩
  · intro h
    simp [handleSubmit, h]
  · intro h hout
    have herr := (validateFormPass_iff st.formData).mp h
    rcases hout with rfl | rfl <;>
    · simp [handleSubmit, h, herr]
  · rintro r h rfl
    simp [handleSubmit, h]

unseal Rat.add Rat.sub Rat.mul Rat.inv in
/-- Witness for C3 (amended): a successful request on a balanced form
navigates with the numeric record and resets the form. -/
theorem C3_witness :
    (handleSubmit
        { formData := { monthly_income := ['4'], monthly_expenses := ['1'],
                        loan_emi := ['1'], savings := ['1'], investments := ['1'] },
          errors := fun _ => "" }
        (NetOutcome.ok ())).navigated =
      some ((), numericData
        { monthly_income := ['4'], monthly_expenses := ['1'],
          loan_emi := ['1'], savings := ['1'], investments := ['1'] }) ∧
    (handleSubmit
        { formData := { monthly_income := ['4'], monthly_expenses := ['1'],
                        loan_emi := ['1'], savings := ['1'], investments := ['1'] },
          errors := fun _ => "" }
        (NetOutcome.ok ())).finalState = initialFormState :=
  have h := (C3_submit_orchestrator
      { formData := { monthly_income := ['4'], monthly_expenses := ['1'],
                      loan_emi := ['1'], savings := ['1'], investments := ['1'] },
        errors := fun _ => "" }
      (NetOutcome.ok ())).2.2 () (by decide) rfl
  ⟨h.1, h.2.2.2⟩

/-- C9: in every rendered form state with positive parsed income, the
submit control is disabled whenever the balance is not exactly zero or an
error is recorded on income or expenses; in particular a state whose
balance misses zero by at most the one-unit tolerance passes the full
validation pass yet cannot be submitted through the button. -/
theorem C9_submit_button_gate :
    (∀ (l : Bool) (st : FormState) (i : ℚ),
      incomeNum st.formData = some i → 0 < i →
      (calculateBalance st.formData ≠ some 0 ∨
        st.errors Field.monthly_income ≠ "" ∨ st.errors Field.monthly_expenses ≠ "") →
      submitDisabled l st = true) ∧
    (∀ (st : FormState) (i t : ℚ),
      (∀ f, validateField f (st.formData.get f) = none) →
      incomeNum st.formData = some i → calculateTotalExpenses st.formData = some t →
      0 < i → 0 < t → 0 < |i - t| → |i - t| ≤ 1 →
      validateFormPass st.formData = true ∧ submitDisabled false st = true) := by
  constructor
  · intro l st i hi hi0 hdisj
    simp only [submitDisabled, Bool.or_eq_true]
    rcases hdisj with hb | he | he
    · refine Or.inl (Or.inl (Or.inr ?_))
      rw [Bool.and_eq_true]
      refine ⟨by simp [jsGtZero, hi, hi0], ?_⟩
      cases hbal : calculateBalance st.formData with
      | none => simp [jsNeZero]
      | some q =>
          have hq : q ≠ 0 := by rintro rfl; exact hb hbal
          simp [jsNeZero, hq]
    · exact Or.inl (Or.inr (by simp [he]))
    · exact Or.inr (by simp [he])
  · intro st i t hpf hi ht hi0 ht0 habs hle
    refine ⟨validateFormPass_of_fields hpf hi ht hi0 ht0 hle, ?_⟩
    have hbal : calculateBalance st.formData = some (i - t) := by
      simp [calculateBalance, hi, ht]
    have hne : i - t ≠ 0 := by
      intro h0
      rw [h0] at habs
      simp at habs
    simp only [submitDisabled, Bool.or_eq_true]
    refine Or.inl (Or.inl (Or.inr ?_))
    rw [Bool.and_eq_true]
    exact ⟨by simp [jsGtZero, hi, hi0], by simp [jsNeZero, hbal, hne]⟩

unseal Rat.add Rat.sub Rat.mul Rat.inv in
/-- Witness for C9: income 4 against a total allocation of 3 is within the
validation tolerance, so the full pass succeeds, yet the submit control is
disabled. -/
theorem C9_witness :
    validateFormPass
      { monthly_income := ['4'], monthly_expenses := ['1'],
        loan_emi := ['1'], savings := ['1'], investments := ['0'] } = true ∧
    submitDisabled false
      { formData := { monthly_income := ['4'], monthly_expenses := ['1'],
                      loan_emi := ['1'], savings := ['1'], investments := ['0'] },
        errors := fun _ => "" } = true :=
  C9_submit_button_gate.2
    { formData := { monthly_income := ['4'], monthly_expenses := ['1'],
                    loan_emi := ['1'], savings := ['1'], investments := ['0'] },
      errors := fun _ => "" } 4 3
    (by intro f; cases f <;> decide) (by decide) (by decide)
    (by norm_num) (by norm_num) (by norm_num) (by norm_num)

end FinHealth
